import Mathlib

/-!
Verification of the reminder sweep scheduler of the personal-assistant bot
(src/app.js, the cron.schedule block).  The sweep is embedded as a pure
function over an explicit environment of collaborators: the user/reminder
store, the notifier, the clock and the locale formatter.  JavaScript control
flow is modelled faithfully: the single try/catch around the whole user loop,
the per-user clock read, and the fact that rejections thrown inside the
reminders.forEach async callback escape that try/catch.
-/

namespace PersonalBot

/-- A reminder document as read by the sweep (rem.data() plus the doc id).
Fields read with === against strings may be absent in a document, hence
Option String. -/
structure Reminder where
  id : String
  text : String
  frequency : Option String
  time : Option String
  day : Option String
  deriving DecidableEq

/-- A user document as read by the sweep: the doc id (also the notification
channel) and the timezone field of userDoc.data(), possibly absent. -/
structure UserRec where
  id : String
  timezone : Option String
  deriving DecidableEq

/-- Models userData.timezone or-else UTC from src/app.js line 308
(userData.timezone || UTC): among strings the empty string is the only
falsy value, and an absent field is falsy. -/
def resolveTz : Option String → String
  | none => "UTC"
  | some s => if s = "" then "UTC" else s

/-- The match predicate of the sweep, src/app.js lines 319-320:
(data.frequency === daily && data.time === userTimeString) ||
(data.frequency === weekly && data.day === userDay && data.time === userTimeString).
A strict comparison of an absent field with a string is false, which the
Option comparison reproduces. -/
def shouldFire (data : Reminder) (userTimeString userDay : String) : Bool :=
  (data.frequency == some "daily" && data.time == some userTimeString) ||
  (data.frequency == some "weekly" && data.day == some userDay &&
    data.time == some userTimeString)

/-- The notification payload, src/app.js line 325. -/
def reminderMessage (data : Reminder) : String :=
  "⏰ *Reminder:* " ++ data.text

/-- Whether the modelled notifier call succeeds for a given channel and text. -/
def sendSucceeds (send : String → String → Except String Unit)
    (channel text : String) : Bool :=
  match send channel text with
  | Except.ok _ => true
  | Except.error _ => false

/-- The error carried by a failing notifier call, if any. -/
def sendErr (send : String → String → Except String Unit)
    (channel text : String) : Option String :=
  match send channel text with
  | Except.ok _ => none
  | Except.error e => some e

/-- One operation performed by the sweep against its collaborators.  The
store interface also offers document creation, update and deletion (used by
the CRUD command handlers elsewhere in src/app.js); the trace records which
of these the sweep performs. -/
inductive StoreOp where
  | readUsers : StoreOp
  | readReminders : String → StoreOp
  | readClock : Nat → StoreOp
  | postMessage : String → String → StoreOp
  | createDoc : String → StoreOp
  | updateDoc : String → StoreOp
  | deleteDoc : String → StoreOp
  deriving DecidableEq

/-- Whether an operation mutates stored state. -/
def StoreOp.isWrite : StoreOp → Bool
  | createDoc _ => true
  | updateDoc _ => true
  | deleteDoc _ => true
  | _ => false

/-- A notification attempt made by the sweep: the destination channel, the
reminder that matched, the message posted, and whether the notifier call
succeeded. -/
structure FireEvent where
  uid : String
  rem : Reminder
  message : String
  sendOk : Bool
  deriving DecidableEq

/-- Ghost record of one user evaluation: the timezone the sweep resolved,
the instant it read from the clock, and the two locale strings it computed
from them (src/app.js lines 308-314). -/
structure EvalRec where
  uid : String
  tz : String
  instant : Nat
  timeStr : String
  dayStr : String
  deriving DecidableEq

/-- Output of evaluating one reminder list (the reminders.forEach call). -/
structure RemOut where
  events : List FireEvent
  escaped : List String
  ops : List StoreOp
  deriving DecidableEq

/-- The observable outcome of one tick: notification attempts, messages
logged by console.error in the catch, rejections that escaped the forEach
async callbacks (hence escaped the catch), the per-user evaluation records,
and the operation trace. -/
structure SweepResult where
  events : List FireEvent
  logged : List String
  escaped : List String
  evals : List EvalRec
  ops : List StoreOp
  deriving DecidableEq

/-- The collaborators of one tick: the user listing, per-user reminder
listing, the notifier, the clock (the i-th value it returns when read for
the i-th time in the tick), and the two Intl-backed formatters
(toLocaleTimeString en-GB HH:MM 24h, toLocaleDateString en-US long
weekday), each taking a timezone name and an instant in minutes since the
epoch. -/
structure TickEnv where
  listUsers : Except String (List UserRec)
  listReminders : String → Except String (List Reminder)
  send : String → String → Except String Unit
  clock : Nat → Nat
  fmtTime : String → Nat → String
  fmtDay : String → Nat → String

/-- The reminders.forEach(async (rem) => ...) body, src/app.js lines
317-328: every document's callback runs; a matching reminder triggers one
chat.postMessage call; a rejected call escapes the callback (the forEach
result is not awaited), so it is recorded as escaped, and it affects no
other callback. -/
def evalReminders (send : String → String → Except String Unit)
    (uid userTimeString userDay : String) : List Reminder → RemOut
  | [] => ⟨[], [], []⟩
  | data :: rest =>
    let tail := evalReminders send uid userTimeString userDay rest
    if shouldFire data userTimeString userDay then
      let msg := reminderMessage data
      match send uid msg with
      | Except.ok _ =>
        ⟨⟨uid, data, msg, true⟩ :: tail.events, tail.escaped,
          StoreOp.postMessage uid msg :: tail.ops⟩
      | Except.error e =>
        ⟨⟨uid, data, msg, false⟩ :: tail.events, e :: tail.escaped,
          StoreOp.postMessage uid msg :: tail.ops⟩
    else tail

/-- The for loop over usersSnapshot.docs, src/app.js lines 306-329, with i
counting clock reads so far: for each user the sweep resolves the timezone,
reads the clock (new Date() inside the loop), formats time and weekday,
awaits the reminders read, and runs the forEach.  A failing reminders read
throws out of the loop into the catch, which logs Cron Error and ends the
tick; users not yet visited are never evaluated. -/
def sweepUsers (env : TickEnv) : List UserRec → Nat → SweepResult
  | [], _ => ⟨[], [], [], [], []⟩
  | u :: rest, i =>
    let tz := resolveTz u.timezone
    let now := env.clock i
    let ts := env.fmtTime tz now
    let ds := env.fmtDay tz now
    match env.listReminders u.id with
    | Except.error e =>
      ⟨[], ["Cron Error: " ++ e], [], [],
        [StoreOp.readClock now, StoreOp.readReminders u.id]⟩
    | Except.ok rems =>
      let out := evalReminders env.send u.id ts ds rems
      let tail := sweepUsers env rest (i + 1)
      ⟨out.events ++ tail.events,
        tail.logged,
        out.escaped ++ tail.escaped,
        ⟨u.id, tz, now, ts, ds⟩ :: tail.evals,
        StoreOp.readClock now :: StoreOp.readReminders u.id :: out.ops
          ++ tail.ops⟩

/-- One tick of the cron job, src/app.js lines 303-333: read the user
collection (a failure is caught and logged, ending the tick), then run the
user loop. -/
def runSweepTick (env : TickEnv) : SweepResult :=
  match env.listUsers with
  | Except.error e =>
    ⟨[], ["Cron Error: " ++ e], [], [], [StoreOp.readUsers]⟩
  | Except.ok users =>
    let r := sweepUsers env users 0
    ⟨r.events, r.logged, r.escaped, r.evals, StoreOp.readUsers :: r.ops⟩

/-- The local HH:MM string the sweep computes for the i-th user of a tick. -/
def userTimeStringOf (env : TickEnv) (i : Nat) (u : UserRec) : String :=
  env.fmtTime (resolveTz u.timezone) (env.clock i)

/-- The local weekday name the sweep computes for the i-th user of a tick. -/
def userDayOf (env : TickEnv) (i : Nat) (u : UserRec) : String :=
  env.fmtDay (resolveTz u.timezone) (env.clock i)

/-- The evaluation record the sweep produces for the i-th user. -/
def evalOf (env : TickEnv) (i : Nat) (u : UserRec) : EvalRec :=
  ⟨u.id, resolveTz u.timezone, env.clock i,
    userTimeStringOf env i u, userDayOf env i u⟩

/-- The notification attempts the sweep produces for the i-th user. -/
def firedOf (env : TickEnv) (i : Nat) (u : UserRec) : List FireEvent :=
  match env.listReminders u.id with
  | Except.error _ => []
  | Except.ok rems =>
    (rems.filter
      (fun r => shouldFire r (userTimeStringOf env i u) (userDayOf env i u))).map
      (fun r => ⟨u.id, r, reminderMessage r,
        sendSucceeds env.send u.id (reminderMessage r)⟩)

/-- Map with an explicit starting index. -/
def mapFrom (f : Nat → α → β) : Nat → List α → List β
  | _, [] => []
  | i, a :: as => f i a :: mapFrom f (i + 1) as

/-- Concatenation of a list of lists. -/
def flatList : List (List α) → List α
  | [] => []
  | l :: ls => l ++ flatList ls

/-- Two-digit decimal rendering of a value below 100. -/
def pad2 (n : Nat) : String :=
  if n < 10 then "0" ++ toString n else toString n

/-- Models the ECMA-402 formatter the code calls at timezone UTC:
toLocaleTimeString with locale en-GB, 2-digit hour and minute, hour12
false, on an instant of m minutes since the Unix epoch yields the UTC
HH:MM string in the 00-23 hour cycle. -/
def utcTimeString (m : Nat) : String :=
  pad2 (m / 60 % 24) ++ ":" ++ pad2 (m % 60)

/-- Full English weekday names indexed from the epoch day (1 January 1970
was a Thursday). -/
def weekdayNames : List String :=
  ["Thursday", "Friday", "Saturday", "Sunday", "Monday", "Tuesday",
    "Wednesday"]

/-- Models the ECMA-402 formatter the code calls at timezone UTC:
toLocaleDateString with locale en-US and long weekday yields the full
English weekday name of the UTC day containing the instant. -/
def utcWeekdayName (m : Nat) : String :=
  weekdayNames.getD (m / 1440 % 7) ""

/-- The rejections that escape the forEach callbacks for the i-th user. -/
def escapedOf (env : TickEnv) (i : Nat) (u : UserRec) : List String :=
  match env.listReminders u.id with
  | Except.error _ => []
  | Except.ok rems =>
    (rems.filter
      (fun r => shouldFire r (userTimeStringOf env i u) (userDayOf env i u))).filterMap
      (fun r => sendErr env.send u.id (reminderMessage r))

/-- The notifier operations the sweep performs for the i-th user. -/
def remOpsOf (env : TickEnv) (i : Nat) (u : UserRec) : List StoreOp :=
  match env.listReminders u.id with
  | Except.error _ => []
  | Except.ok rems =>
    (rems.filter
      (fun r => shouldFire r (userTimeStringOf env i u) (userDayOf env i u))).map
      (fun r => StoreOp.postMessage u.id (reminderMessage r))

/-- The full operation trace of the sweep for the i-th user, when its
reminders read succeeds. -/
def tickOpsOf (env : TickEnv) (i : Nat) (u : UserRec) : List StoreOp :=
  StoreOp.readClock (env.clock i) :: StoreOp.readReminders u.id ::
    remOpsOf env i u

/-- Replace the user listing of an environment, keeping every other
collaborator. -/
def withUsers (env : TickEnv) (us : List UserRec) : TickEnv :=
  { env with listUsers := Except.ok us }

/-- A concrete environment builder whose formatters behave as the ECMA-402
ones do at timezone UTC. -/
def mkEnv (users : Except String (List UserRec))
    (rems : String → Except String (List Reminder))
    (send : String → String → Except String Unit)
    (clock : Nat → Nat) : TickEnv :=
  ⟨users, rems, send, clock,
    fun tz m => if tz = "UTC" then utcTimeString m else "",
    fun tz m => if tz = "UTC" then utcWeekdayName m else ""⟩

/-- A notifier that always succeeds. -/
def okSend : String → String → Except String Unit := fun _ _ => Except.ok ()

/-- Sample user A, no timezone field. -/
def uA : UserRec := ⟨"A", none⟩

/-- Sample user B, no timezone field. -/
def uB : UserRec := ⟨"B", none⟩

/-- Sample user whose timezone field is present but empty. -/
def uEmptyTz : UserRec := ⟨"A", some ""⟩

/-- A daily reminder at local midnight. -/
def rMidnight : Reminder := ⟨"r1", "stretch", some "daily", some "00:00", none⟩

/-- A second daily reminder at local midnight. -/
def rTwo : Reminder := ⟨"r2", "exercise", some "daily", some "00:00", none⟩

/-- A reminder with a frequency that is neither daily nor weekly. -/
def rMonthly : Reminder := ⟨"r9", "pay rent", some "monthly", some "09:00", some "Monday"⟩

/-- Environment with one user and one matching reminder. -/
def c1wEnv : TickEnv :=
  mkEnv (Except.ok [uA]) (fun _ => Except.ok [rMidnight]) okSend (fun _ => 0)

/-- Environment where the first user's reminders read fails and the second
user has a reminder that matches the tick instant. -/
def c2Env : TickEnv :=
  mkEnv (Except.ok [uA, uB])
    (fun uid => if uid = "A" then Except.error "boom" else Except.ok [rMidnight])
    okSend (fun _ => 0)

/-- Environment where the second user's reminders read fails and the first
user has a reminder that matches the tick instant. -/
def c2wEnv : TickEnv :=
  mkEnv (Except.ok [uB, uA])
    (fun uid => if uid = "A" then Except.error "boom" else Except.ok [rMidnight])
    okSend (fun _ => 0)

/-- Environment with two users holding the same midnight reminder and a
clock that advances between its reads. -/
def c3Env : TickEnv :=
  mkEnv (Except.ok [uA, uB]) (fun _ => Except.ok [rMidnight]) okSend (fun i => i)

/-- Environment with one timezone-less user and a daily midnight reminder,
at a tick instant that is midnight UTC. -/
def c4wEnv : TickEnv :=
  mkEnv (Except.ok [uA]) (fun _ => Except.ok [rMidnight]) okSend (fun _ => 1440)

/-- Environment where the notifier rejects the first reminder's message and
accepts the second's. -/
def c5Env : TickEnv :=
  mkEnv (Except.ok [uA]) (fun _ => Except.ok [rMidnight, rTwo])
    (fun _ msg => if msg = reminderMessage rMidnight
      then Except.error "slack_down" else Except.ok ())
    (fun _ => 0)

/-- Environment with one user and two distinct matching reminders. -/
def c6wEnv : TickEnv :=
  mkEnv (Except.ok [uA]) (fun _ => Except.ok [rMidnight, rTwo]) okSend (fun _ => 0)

/-- Environment with one user and an empty reminder list. -/
def c8wEnv : TickEnv :=
  mkEnv (Except.ok [uA]) (fun _ => Except.ok []) okSend (fun _ => 0)

/-- Environment whose single user has an empty timezone string. -/
def c10wEnv : TickEnv :=
  mkEnv (Except.ok [uEmptyTz]) (fun _ => Except.ok [rMidnight]) okSend (fun _ => 0)

/-! ### Characterizations of one forEach pass -/

theorem evalReminders_events_eq (send : String → String → Except String Unit)
    (uid ts ds : String) (rems : List Reminder) :
    (evalReminders send uid ts ds rems).events =
      (rems.filter (fun r => shouldFire r ts ds)).map
        (fun r => ⟨uid, r, reminderMessage r,
          sendSucceeds send uid (reminderMessage r)⟩) := by
  induction rems with
  | nil => rfl
  | cons a rest ih =>
    cases h : shouldFire a ts ds with
    | false => simp [evalReminders, h, ih]
    | true =>
      cases hs : send uid (reminderMessage a) with
      | ok v => simp [evalReminders, h, hs, ih, sendSucceeds]
      | error e => simp [evalReminders, h, hs, ih, sendSucceeds]

theorem evalReminders_escaped_eq (send : String → String → Except String Unit)
    (uid ts ds : String) (rems : List Reminder) :
    (evalReminders send uid ts ds rems).escaped =
      (rems.filter (fun r => shouldFire r ts ds)).filterMap
        (fun r => sendErr send uid (reminderMessage r)) := by
  induction rems with
  | nil => rfl
  | cons a rest ih =>
    cases h : shouldFire a ts ds with
    | false => simp [evalReminders, h, ih]
    | true =>
      cases hs : send uid (reminderMessage a) with
      | ok v => simp [evalReminders, h, hs, ih, sendErr]
      | error e => simp [evalReminders, h, hs, ih, sendErr]

theorem evalReminders_ops_eq (send : String → String → Except String Unit)
    (uid ts ds : String) (rems : List Reminder) :
    (evalReminders send uid ts ds rems).ops =
      (rems.filter (fun r => shouldFire r ts ds)).map
        (fun r => StoreOp.postMessage uid (reminderMessage r)) := by
  induction rems with
  | nil => rfl
  | cons a rest ih =>
    cases h : shouldFire a ts ds with
    | false => simp [evalReminders, h, ih]
    | true =>
      cases hs : send uid (reminderMessage a) with
      | ok v => simp [evalReminders, h, hs, ih]
      | error e => simp [evalReminders, h, hs, ih]

/-! ### Unfolding lemmas for the user loop -/

theorem sweepUsers_nil (env : TickEnv) (i : Nat) :
    sweepUsers env [] i = ⟨[], [], [], [], []⟩ := rfl

theorem sweepUsers_cons_err (env : TickEnv) (u : UserRec) (rest : List UserRec)
    (i : Nat) (err : String) (hu : env.listReminders u.id = Except.error err) :
    sweepUsers env (u :: rest) i =
      ⟨[], ["Cron Error: " ++ err], [], [],
        [StoreOp.readClock (env.clock i), StoreOp.readReminders u.id]⟩ := by
  simp [sweepUsers, hu]

theorem sweepUsers_cons_ok (env : TickEnv) (u : UserRec) (rest : List UserRec)
    (i : Nat) (rems : List Reminder)
    (hu : env.listReminders u.id = Except.ok rems) :
    sweepUsers env (u :: rest) i =
      ⟨firedOf env i u ++ (sweepUsers env rest (i + 1)).events,
        (sweepUsers env rest (i + 1)).logged,
        escapedOf env i u ++ (sweepUsers env rest (i + 1)).escaped,
        evalOf env i u :: (sweepUsers env rest (i + 1)).evals,
        tickOpsOf env i u ++ (sweepUsers env rest (i + 1)).ops⟩ := by
  simp only [sweepUsers, hu, firedOf, escapedOf, evalOf, tickOpsOf, remOpsOf,
    userTimeStringOf, userDayOf, evalReminders_events_eq, evalReminders_escaped_eq,
    evalReminders_ops_eq, List.cons_append, List.append_assoc]

theorem sweepUsers_append_ok (env : TickEnv) (pre rest : List UserRec) (i : Nat)
    (hpre : ∀ v ∈ pre, ∃ rs, env.listReminders v.id = Except.ok rs) :
    sweepUsers env (pre ++ rest) i =
      ⟨flatList (mapFrom (firedOf env) i pre) ++
          (sweepUsers env rest (i + pre.length)).events,
        (sweepUsers env rest (i + pre.length)).logged,
        flatList (mapFrom (escapedOf env) i pre) ++
          (sweepUsers env rest (i + pre.length)).escaped,
        mapFrom (evalOf env) i pre ++ (sweepUsers env rest (i + pre.length)).evals,
        flatList (mapFrom (tickOpsOf env) i pre) ++
          (sweepUsers env rest (i + pre.length)).ops⟩ := by
  induction pre generalizing i with
  | nil => simp [mapFrom, flatList]
  | cons u pre' ih =>
    obtain ⟨rs, hu⟩ := hpre u (List.mem_cons_self u pre')
    have hpre' : ∀ v ∈ pre', ∃ rs, env.listReminders v.id = Except.ok rs :=
      fun v hv => hpre v (List.mem_cons_of_mem u hv)
    have hidx : i + 1 + pre'.length = i + (pre'.length + 1) := by omega
    rw [List.cons_append, sweepUsers_cons_ok env u (pre' ++ rest) i rs hu,
      ih (i + 1) hpre']
    simp [mapFrom, flatList, List.append_assoc, List.length_cons, hidx]

theorem mem_flatList {α : Type} (x : α) (ls : List (List α)) :
    x ∈ flatList ls ↔ ∃ l ∈ ls, x ∈ l := by
  induction ls with
  | nil => simp [flatList]
  | cons l ls ih => simp [flatList, List.mem_append, ih]

theorem mem_mapFrom {α β : Type} (f : Nat → α → β) (i : Nat) (l : List α)
    (b : β) (hb : b ∈ mapFrom f i l) : ∃ j a, a ∈ l ∧ b = f j a := by
  induction l generalizing i with
  | nil => cases hb
  | cons a l ih =>
    rcases (by simpa [mapFrom] using hb : b = f i a ∨ b ∈ mapFrom f (i + 1) l) with
      h | h
    · exact ⟨i, a, List.mem_cons_self a l, h⟩
    · obtain ⟨j, a', ha', hb'⟩ := ih (i + 1) h
      exact ⟨j, a', List.mem_cons_of_mem a ha', hb'⟩

theorem firedOf_uid (env : TickEnv) (i : Nat) (u : UserRec) (e : FireEvent)
    (he : e ∈ firedOf env i u) : e.uid = u.id := by
  unfold firedOf at he
  cases h : env.listReminders u.id with
  | error err => rw [h] at he; cases he
  | ok rems =>
    rw [h] at he
    obtain ⟨r, _, rfl⟩ := List.mem_map.mp he
    rfl

theorem firedOf_fire (env : TickEnv) (i : Nat) (u : UserRec) (e : FireEvent)
    (he : e ∈ firedOf env i u) :
    shouldFire e.rem (userTimeStringOf env i u) (userDayOf env i u) = true := by
  unfold firedOf at he
  cases h : env.listReminders u.id with
  | error err => rw [h] at he; cases he
  | ok rems =>
    rw [h] at he
    obtain ⟨r, hr, rfl⟩ := List.mem_map.mp he
    exact (List.mem_filter.mp hr).2

theorem sweepUsers_events_uid (env : TickEnv) (users : List UserRec) (i : Nat)
    (e : FireEvent) (he : e ∈ (sweepUsers env users i).events) :
    e.uid ∈ users.map UserRec.id := by
  induction users generalizing i with
  | nil => rw [sweepUsers_nil] at he; cases he
  | cons u rest ih =>
    cases h : env.listReminders u.id with
    | error err => rw [sweepUsers_cons_err env u rest i err h] at he; cases he
    | ok rems =>
      rw [sweepUsers_cons_ok env u rest i rems h] at he
      rcases List.mem_append.mp he with hl | hr
      · exact List.map_cons UserRec.id u rest ▸
          (firedOf_uid env i u e hl ▸ List.mem_cons_self u.id (rest.map UserRec.id))
      · exact List.map_cons UserRec.id u rest ▸
          List.mem_cons_of_mem u.id (ih (i + 1) hr)

theorem sweepUsers_events_fire (env : TickEnv) (users : List UserRec) (i : Nat)
    (e : FireEvent) (he : e ∈ (sweepUsers env users i).events) :
    ∃ ts ds, shouldFire e.rem ts ds = true := by
  induction users generalizing i with
  | nil => rw [sweepUsers_nil] at he; cases he
  | cons u rest ih =>
    cases h : env.listReminders u.id with
    | error err => rw [sweepUsers_cons_err env u rest i err h] at he; cases he
    | ok rems =>
      rw [sweepUsers_cons_ok env u rest i rems h] at he
      rcases List.mem_append.mp he with hl | hr
      · exact ⟨userTimeStringOf env i u, userDayOf env i u, firedOf_fire env i u e hl⟩
      · exact ih (i + 1) hr

/-! ### Decomposition of a full tick around one user -/

theorem runSweepTick_events_decomp (env : TickEnv) (pre post : List UserRec)
    (u : UserRec)
    (husers : env.listUsers = Except.ok (pre ++ u :: post))
    (hpre : ∀ v ∈ pre, ∃ rs, env.listReminders v.id = Except.ok rs) :
    (runSweepTick env).events =
      flatList (mapFrom (firedOf env) 0 pre) ++
        (sweepUsers env (u :: post) pre.length).events := by
  unfold runSweepTick
  rw [husers]
  simp only [sweepUsers_append_ok env pre (u :: post) 0 hpre, Nat.zero_add]

theorem mem_events_of_shouldFire (env : TickEnv) (pre post : List UserRec)
    (u : UserRec) (rems : List Reminder) (r : Reminder)
    (husers : env.listUsers = Except.ok (pre ++ u :: post))
    (hpre : ∀ v ∈ pre, ∃ rs, env.listReminders v.id = Except.ok rs)
    (hu : env.listReminders u.id = Except.ok rems)
    (hr : r ∈ rems)
    (hfire : shouldFire r (userTimeStringOf env pre.length u)
      (userDayOf env pre.length u) = true) :
    ∃ e ∈ (runSweepTick env).events, e.uid = u.id ∧ e.rem = r := by
  refine ⟨⟨u.id, r, reminderMessage r,
    sendSucceeds env.send u.id (reminderMessage r)⟩, ?_, rfl, rfl⟩
  rw [runSweepTick_events_decomp env pre post u husers hpre]
  refine List.mem_append.mpr (Or.inr ?_)
  rw [sweepUsers_cons_ok env u post pre.length rems hu]
  refine List.mem_append.mpr (Or.inl ?_)
  unfold firedOf
  rw [hu]
  exact List.mem_map.mpr ⟨r, List.mem_filter.mpr ⟨hr, hfire⟩, rfl⟩

theorem not_mem_of_nodup_left (pre post : List UserRec) (u : UserRec)
    (hnodup : ((pre ++ u :: post).map UserRec.id).Nodup) :
    u.id ∉ pre.map UserRec.id := by
  rw [List.map_append] at hnodup
  have hdisj := (List.nodup_append.mp hnodup).2.2
  intro hmem
  exact hdisj hmem (by simp)

theorem not_mem_of_nodup_right (pre post : List UserRec) (u : UserRec)
    (hnodup : ((pre ++ u :: post).map UserRec.id).Nodup) :
    u.id ∉ post.map UserRec.id := by
  rw [List.map_append] at hnodup
  have hcons := (List.nodup_append.mp hnodup).2.1
  rw [List.map_cons, List.nodup_cons] at hcons
  exact hcons.1

theorem shouldFire_of_mem_events (env : TickEnv) (pre post : List UserRec)
    (u : UserRec) (rems : List Reminder) (r : Reminder) (e : FireEvent)
    (husers : env.listUsers = Except.ok (pre ++ u :: post))
    (hnodup : ((pre ++ u :: post).map UserRec.id).Nodup)
    (hpre : ∀ v ∈ pre, ∃ rs, env.listReminders v.id = Except.ok rs)
    (hu : env.listReminders u.id = Except.ok rems)
    (he : e ∈ (runSweepTick env).events) (heu : e.uid = u.id) (her : e.rem = r) :
    shouldFire r (userTimeStringOf env pre.length u)
      (userDayOf env pre.length u) = true := by
  rw [runSweepTick_events_decomp env pre post u husers hpre] at he
  rcases List.mem_append.mp he with hl | hrest
  · obtain ⟨l, hl', hel⟩ := (mem_flatList e _).mp hl
    obtain ⟨j, v, hv, rfl⟩ := mem_mapFrom _ 0 pre l hl'
    have : e.uid ∈ pre.map UserRec.id :=
      List.mem_map.mpr ⟨v, hv, (firedOf_uid env j v e hel).symm⟩
    exact absurd (heu ▸ this) (not_mem_of_nodup_left pre post u hnodup)
  · rw [sweepUsers_cons_ok env u post pre.length rems hu] at hrest
    rcases List.mem_append.mp hrest with hmid | htail
    · exact her ▸ firedOf_fire env pre.length u e hmid
    · have := sweepUsers_events_uid env post (pre.length + 1) e htail
      exact absurd (heu ▸ this) (not_mem_of_nodup_right pre post u hnodup)

/-! ### Support for the remaining claims -/

theorem shouldFire_day_irrel (r : Reminder) (d : Option String) (ts ds : String)
    (hfreq : r.frequency = some "daily") :
    shouldFire { r with day := d } ts ds = shouldFire r ts ds := by
  have h2 : ((some "daily" : Option String) == some "weekly") = false := by decide
  simp [shouldFire, hfreq, h2]

theorem countP_id_filter (rems : List Reminder) (r : Reminder)
    (p : Reminder → Bool)
    (hnodup : (rems.map Reminder.id).Nodup) (hr : r ∈ rems) :
    (rems.filter p).countP (fun x => x.id == r.id) = if p r then 1 else 0 := by
  induction rems with
  | nil => cases hr
  | cons a rest ih =>
    rw [List.map_cons, List.nodup_cons] at hnodup
    rcases List.mem_cons.mp hr with rfl | hr'
    · have hz : (rest.filter p).countP (fun x => x.id == r.id) = 0 := by
        refine List.countP_eq_zero.mpr ?_
        intro x hx hbeq
        have hxid : x.id = r.id := by simpa using hbeq
        exact hnodup.1 (hxid ▸ List.mem_map.mpr ⟨x, List.mem_of_mem_filter hx, rfl⟩)
      cases hp : p r with
      | false => simpa [List.filter_cons, hp] using hz
      | true => simp [List.filter_cons, hp, List.countP_cons, hz]
    · have hne : (a.id == r.id) = false := by
        refine beq_eq_false_iff_ne.mpr ?_
        intro haid
        exact hnodup.1 (haid ▸ List.mem_map.mpr ⟨r, hr', rfl⟩)
      cases hp : p a with
      | false => simpa [List.filter_cons, hp] using ih hnodup.2 hr'
      | true =>
        simpa [List.filter_cons, hp, List.countP_cons, hne] using ih hnodup.2 hr'

theorem firedOf_countP (env : TickEnv) (i : Nat) (u : UserRec)
    (rems : List Reminder) (r : Reminder)
    (hu : env.listReminders u.id = Except.ok rems)
    (hnodup : (rems.map Reminder.id).Nodup) (hr : r ∈ rems) :
    (firedOf env i u).countP (fun e => e.uid == u.id && e.rem.id == r.id) =
      if shouldFire r (userTimeStringOf env i u) (userDayOf env i u)
        then 1 else 0 := by
  unfold firedOf
  rw [hu, List.countP_map]
  have hself : (u.id == u.id) = true := by simp
  have : ((fun e : FireEvent => e.uid == u.id && e.rem.id == r.id) ∘
      (fun r' : Reminder => (⟨u.id, r', reminderMessage r',
        sendSucceeds env.send u.id (reminderMessage r')⟩ : FireEvent))) =
      fun x : Reminder => x.id == r.id := by
    funext x
    simp [Function.comp, hself]
  rw [this]
  exact countP_id_filter rems r _ hnodup hr

theorem countP_zero_of_uid_ne (l : List FireEvent) (uid rid : String)
    (users : List UserRec)
    (hmem : ∀ e ∈ l, e.uid ∈ users.map UserRec.id)
    (hnot : uid ∉ users.map UserRec.id) :
    l.countP (fun e => e.uid == uid && e.rem.id == rid) = 0 := by
  refine List.countP_eq_zero.mpr ?_
  intro e hel hb
  have huid : e.uid = uid := by
    have := (Bool.and_eq_true _ _).mp hb
    simpa using this.1
  exact hnot (huid ▸ hmem e hel)

theorem sweepUsers_logged_ok (env : TickEnv) (users : List UserRec) (i : Nat)
    (hok : ∀ v ∈ users, ∃ rs, env.listReminders v.id = Except.ok rs) :
    (sweepUsers env users i).logged = [] := by
  have := sweepUsers_append_ok env users [] i hok
  rw [List.append_nil] at this
  rw [this]
  simp [sweepUsers_nil]

theorem sweepUsers_evals_ok (env : TickEnv) (users : List UserRec) (i : Nat)
    (hok : ∀ v ∈ users, ∃ rs, env.listReminders v.id = Except.ok rs) :
    (sweepUsers env users i).evals = mapFrom (evalOf env) i users := by
  have := sweepUsers_append_ok env users [] i hok
  rw [List.append_nil] at this
  rw [this]
  simp [sweepUsers_nil]

theorem sweepUsers_events_ok (env : TickEnv) (users : List UserRec) (i : Nat)
    (hok : ∀ v ∈ users, ∃ rs, env.listReminders v.id = Except.ok rs) :
    (sweepUsers env users i).events = flatList (mapFrom (firedOf env) i users) := by
  have := sweepUsers_append_ok env users [] i hok
  rw [List.append_nil] at this
  rw [this]
  simp [sweepUsers_nil]

theorem sweepUsers_ops_noWrite (env : TickEnv) (users : List UserRec) (i : Nat)
    (op : StoreOp) (hop : op ∈ (sweepUsers env users i).ops) :
    op.isWrite = false := by
  induction users generalizing i with
  | nil => rw [sweepUsers_nil] at hop; cases hop
  | cons u rest ih =>
    cases h : env.listReminders u.id with
    | error err =>
      rw [sweepUsers_cons_err env u rest i err h] at hop
      rcases (by simpa using hop :
          op = StoreOp.readClock (env.clock i) ∨ op = StoreOp.readReminders u.id)
        with rfl | rfl <;> rfl
    | ok rems =>
      rw [sweepUsers_cons_ok env u rest i rems h] at hop
      rcases List.mem_append.mp hop with hl | hr
      · unfold tickOpsOf remOpsOf at hl
        rw [h] at hl
        rcases List.mem_cons.mp hl with rfl | hl'
        · rfl
        · rcases List.mem_cons.mp hl' with rfl | hl''
          · rfl
          · obtain ⟨x, _, rfl⟩ := List.mem_map.mp hl''
            rfl
      · exact ih (i + 1) hr

theorem sweepUsers_evals_shape (env : TickEnv) (users : List UserRec) (i : Nat)
    (e : EvalRec) (he : e ∈ (sweepUsers env users i).evals) :
    ∃ j u, e = evalOf env j u := by
  induction users generalizing i with
  | nil => rw [sweepUsers_nil] at he; cases he
  | cons u rest ih =>
    cases h : env.listReminders u.id with
    | error err => rw [sweepUsers_cons_err env u rest i err h] at he; cases he
    | ok rems =>
      rw [sweepUsers_cons_ok env u rest i rems h] at he
      rcases List.mem_cons.mp he with rfl | hr
      · exact ⟨i, u, rfl⟩
      · exact ih (i + 1) hr

theorem sweepUsers_users_irrel (env : TickEnv) (us : List UserRec)
    (l : List UserRec) (i : Nat) :
    sweepUsers (withUsers env us) l i = sweepUsers env l i := by
  induction l generalizing i with
  | nil => rfl
  | cons u rest ih =>
    cases h : env.listReminders u.id with
    | error err =>
      rw [sweepUsers_cons_err (withUsers env us) u rest i err h,
        sweepUsers_cons_err env u rest i err h]
      rfl
    | ok rems =>
      rw [sweepUsers_cons_ok (withUsers env us) u rest i rems h,
        sweepUsers_cons_ok env u rest i rems h, ih (i + 1)]
      rfl

theorem sweepUsers_congr_user (env : TickEnv) (pre post : List UserRec)
    (u v : UserRec) (i : Nat)
    (hid : u.id = v.id) (htz : resolveTz u.timezone = resolveTz v.timezone) :
    sweepUsers env (pre ++ u :: post) i = sweepUsers env (pre ++ v :: post) i := by
  induction pre generalizing i with
  | nil =>
    simp only [List.nil_append, sweepUsers, hid, htz]
  | cons w pre' ih =>
    rw [List.cons_append, List.cons_append]
    cases h : env.listReminders w.id with
    | error err =>
      rw [sweepUsers_cons_err env w (pre' ++ u :: post) i err h,
        sweepUsers_cons_err env w (pre' ++ v :: post) i err h]
    | ok rems =>
      rw [sweepUsers_cons_ok env w (pre' ++ u :: post) i rems h,
        sweepUsers_cons_ok env w (pre' ++ v :: post) i rems h, ih (i + 1)]

theorem utcTimeString_midnight (m : Nat) (hm : m % 1440 = 0) :
    utcTimeString m = "00:00" := by
  have h1 : m % 60 = 0 := by omega
  have h2 : m / 60 % 24 = 0 := by omega
  rw [utcTimeString, h1, h2]
  rfl

theorem runSweepTick_ok (env : TickEnv) (users : List UserRec)
    (husers : env.listUsers = Except.ok users) :
    runSweepTick env =
      ⟨(sweepUsers env users 0).events, (sweepUsers env users 0).logged,
        (sweepUsers env users 0).escaped, (sweepUsers env users 0).evals,
        StoreOp.readUsers :: (sweepUsers env users 0).ops⟩ := by
  simp only [runSweepTick, husers]

/-! ### The claims -/

/-- C1: for every user and reminder a sweep tick reaches, a notification is
delivered iff the match predicate holds: frequency daily and time equal to
the user-local HH:MM of the tick instant, or frequency weekly with both the
day equal to the local weekday name and the time equal to the local HH:MM;
a daily reminder's firing is independent of its day field. -/
theorem c1_delivery_iff_match (env : TickEnv) (pre post : List UserRec)
    (u : UserRec) (rems : List Reminder) (r : Reminder)
    (husers : env.listUsers = Except.ok (pre ++ u :: post))
    (hnodup : ((pre ++ u :: post).map UserRec.id).Nodup)
    (hpre : ∀ v ∈ pre, ∃ rs, env.listReminders v.id = Except.ok rs)
    (hu : env.listReminders u.id = Except.ok rems)
    (hr : r ∈ rems) :
    ((∃ e ∈ (runSweepTick env).events, e.uid = u.id ∧ e.rem = r) ↔
      shouldFire r (userTimeStringOf env pre.length u)
        (userDayOf env pre.length u) = true) ∧
    (r.frequency = some "daily" → ∀ d,
      shouldFire { r with day := d } (userTimeStringOf env pre.length u)
          (userDayOf env pre.length u) =
        shouldFire r (userTimeStringOf env pre.length u)
          (userDayOf env pre.length u)) := by
  refine ⟨⟨?_, ?_⟩, ?_⟩
  · rintro ⟨e, he, heu, her⟩
    exact shouldFire_of_mem_events env pre post u rems r e husers hnodup hpre hu
      he heu her
  · intro hfire
    exact mem_events_of_shouldFire env pre post u rems r husers hpre hu hr hfire
  · intro hfreq d
    exact shouldFire_day_irrel r d _ _ hfreq

/-- Witness for C1 at a one-user environment with a matching daily
reminder. -/
theorem c1_delivery_iff_match_witness :
    ((∃ e ∈ (runSweepTick c1wEnv).events, e.uid = uA.id ∧ e.rem = rMidnight) ↔
      shouldFire rMidnight (userTimeStringOf c1wEnv 0 uA)
        (userDayOf c1wEnv 0 uA) = true) ∧
    (rMidnight.frequency = some "daily" → ∀ d,
      shouldFire { rMidnight with day := d } (userTimeStringOf c1wEnv 0 uA)
          (userDayOf c1wEnv 0 uA) =
        shouldFire rMidnight (userTimeStringOf c1wEnv 0 uA)
          (userDayOf c1wEnv 0 uA)) :=
  c1_delivery_iff_match c1wEnv [] [] uA [rMidnight] rMidnight rfl (by simp)
    (by simp) rfl (by simp)

/-- C2 counterexample: in c2Env the read of user A's reminders fails and
user B, whose daily reminder matches the tick instant, receives no
delivery; the claim that every other user's reminders are still evaluated
and delivered in the same tick is false on the code. -/
theorem c2_counterexample :
    (runSweepTick c2Env).events = [] ∧
    (runSweepTick c2Env).logged = ["Cron Error: boom"] ∧
    shouldFire rMidnight (userTimeStringOf c2Env 1 uB)
      (userDayOf c2Env 1 uB) = true := by
  refine ⟨rfl, rfl, rfl⟩

/-- C2 corrected: a failure reading one user's reminder collection is
logged (as Cron Error) and aborts the remainder of the tick: the failing
user and every user after it in iteration order are skipped, while users
already evaluated before the failure keep their deliveries. -/
theorem c2_read_failure_aborts (env : TickEnv) (pre post : List UserRec)
    (u : UserRec) (err : String)
    (husers : env.listUsers = Except.ok (pre ++ u :: post))
    (hpre : ∀ v ∈ pre, ∃ rs, env.listReminders v.id = Except.ok rs)
    (hu : env.listReminders u.id = Except.error err) :
    (runSweepTick env).logged = ["Cron Error: " ++ err] ∧
    (runSweepTick env).evals = mapFrom (evalOf env) 0 pre ∧
    (runSweepTick env).events = flatList (mapFrom (firedOf env) 0 pre) := by
  rw [runSweepTick_ok env (pre ++ u :: post) husers]
  simp only [sweepUsers_append_ok env pre (u :: post) 0 hpre, Nat.zero_add]
  rw [sweepUsers_cons_err env u post pre.length err hu]
  simp

/-- Witness for the corrected C2: user B is evaluated and delivered before
user A's failing read aborts the tick. -/
theorem c2_read_failure_aborts_witness :
    (runSweepTick c2wEnv).logged = ["Cron Error: boom"] ∧
    (runSweepTick c2wEnv).evals = mapFrom (evalOf c2wEnv) 0 [uB] ∧
    (runSweepTick c2wEnv).events = flatList (mapFrom (firedOf c2wEnv) 0 [uB]) :=
  c2_read_failure_aborts c2wEnv [uB] [] uA "boom" rfl
    (by intro v hv; rw [List.mem_singleton] at hv; subst hv
        exact ⟨[rMidnight], rfl⟩)
    rfl

/-- C3 counterexample: in c3Env the clock advances between its per-user
reads, so the two users of one tick are evaluated against different
instants (0 and 1), and only user A's copy of the shared midnight reminder
fires; the claim that a tick never evaluates two users against different
instants is false on the code, which calls new Date() inside the user
loop. -/
theorem c3_counterexample :
    (runSweepTick c3Env).evals.map EvalRec.instant = [0, 1] ∧
    ¬ (runSweepTick c3Env).evals.Pairwise (fun a b => a.instant = b.instant) ∧
    (runSweepTick c3Env).events.map FireEvent.uid = ["A"] := by
  decide

/-- C3 corrected: the clock is read once per user, not once per tick; each
user's evaluation record and every match decision for that user's
reminders use that user's single clock reading, but distinct users of the
same tick may observe distinct instants. -/
theorem c3_per_user_instant (env : TickEnv) (users : List UserRec)
    (husers : env.listUsers = Except.ok users)
    (hok : ∀ v ∈ users, ∃ rs, env.listReminders v.id = Except.ok rs) :
    (runSweepTick env).evals = mapFrom (evalOf env) 0 users ∧
    (runSweepTick env).events = flatList (mapFrom (firedOf env) 0 users) := by
  rw [runSweepTick_ok env users husers]
  exact ⟨sweepUsers_evals_ok env users 0 hok, sweepUsers_events_ok env users 0 hok⟩

/-- Witness for the corrected C3 at the two-user environment with a moving
clock. -/
theorem c3_per_user_instant_witness :
    (runSweepTick c3Env).evals = mapFrom (evalOf c3Env) 0 [uA, uB] ∧
    (runSweepTick c3Env).events = flatList (mapFrom (firedOf c3Env) 0 [uA, uB]) :=
  c3_per_user_instant c3Env [uA, uB] rfl
    (fun _ _ => ⟨[rMidnight], rfl⟩)

/-- C4: a user whose timezone field is absent is resolved to UTC, and a
daily reminder at 00:00 of such a user is delivered when the tick instant
is midnight UTC (the formatted local time then equals 00:00). -/
theorem c4_missing_timezone_utc (env : TickEnv) (pre post : List UserRec)
    (u : UserRec) (rems : List Reminder) (r : Reminder)
    (husers : env.listUsers = Except.ok (pre ++ u :: post))
    (hpre : ∀ v ∈ pre, ∃ rs, env.listReminders v.id = Except.ok rs)
    (htz : u.timezone = none)
    (hfmt : ∀ m, env.fmtTime "UTC" m = utcTimeString m)
    (hu : env.listReminders u.id = Except.ok rems)
    (hr : r ∈ rems) (hfreq : r.frequency = some "daily")
    (htime : r.time = some "00:00")
    (hmid : env.clock pre.length % 1440 = 0) :
    resolveTz u.timezone = "UTC" ∧
    ∃ e ∈ (runSweepTick env).events, e.uid = u.id ∧ e.rem = r := by
  have htzu : resolveTz u.timezone = "UTC" := by rw [htz]; rfl
  refine ⟨htzu, ?_⟩
  have hts : userTimeStringOf env pre.length u = "00:00" := by
    rw [userTimeStringOf, htzu, hfmt, utcTimeString_midnight _ hmid]
  have hfire : shouldFire r (userTimeStringOf env pre.length u)
      (userDayOf env pre.length u) = true := by
    rw [hts]
    simp [shouldFire, hfreq, htime]
  exact mem_events_of_shouldFire env pre post u rems r husers hpre hu hr hfire

/-- Witness for C4: a timezone-less user with a daily 00:00 reminder is
delivered at the instant 1440 minutes after the epoch, which is midnight
UTC. -/
theorem c4_missing_timezone_utc_witness :
    resolveTz uA.timezone = "UTC" ∧
    ∃ e ∈ (runSweepTick c4wEnv).events, e.uid = uA.id ∧ e.rem = rMidnight :=
  c4_missing_timezone_utc c4wEnv [] [] uA [rMidnight] rMidnight rfl (by simp)
    rfl (fun _ => rfl) rfl (by simp) rfl rfl (by decide)

/-- C5 (evidence of the code bug): in c5Env the notifier rejects the first
matched reminder's message and accepts the second's; the tick logs nothing
— the rejection escapes the forEach async callback and bypasses the
try/catch that logs Cron Error — while the second reminder is still
evaluated and delivered, and the failed send is attempted exactly once.
The claim's logged-and-non-fatal behaviour is what the catch was written
for, but the code never routes the rejection into it. -/
theorem c5_delivery_failure_escapes_catch :
    (runSweepTick c5Env).logged = [] ∧
    (runSweepTick c5Env).escaped = ["slack_down"] ∧
    (runSweepTick c5Env).events.map (fun e => (e.rem.id, e.sendOk)) =
      [("r1", false), ("r2", true)] :=
  ⟨rfl, rfl, rfl⟩

/-- C6: within one tick with its fixed per-user instant, each (user,
reminder) pair is evaluated exactly once and yields at most one
notification attempt: the number of attempts for the pair is one when the
match predicate holds and zero otherwise. -/
theorem c6_at_most_once (env : TickEnv) (pre post : List UserRec)
    (u : UserRec) (rems : List Reminder) (r : Reminder)
    (husers : env.listUsers = Except.ok (pre ++ u :: post))
    (hnodupU : ((pre ++ u :: post).map UserRec.id).Nodup)
    (hpre : ∀ v ∈ pre, ∃ rs, env.listReminders v.id = Except.ok rs)
    (hu : env.listReminders u.id = Except.ok rems)
    (hnodupR : (rems.map Reminder.id).Nodup)
    (hr : r ∈ rems) :
    (runSweepTick env).events.countP
        (fun e => e.uid == u.id && e.rem.id == r.id) =
      if shouldFire r (userTimeStringOf env pre.length u)
          (userDayOf env pre.length u) then 1 else 0 := by
  rw [runSweepTick_events_decomp env pre post u husers hpre]
  rw [List.countP_append]
  have hzero1 : (flatList (mapFrom (firedOf env) 0 pre)).countP
      (fun e => e.uid == u.id && e.rem.id == r.id) = 0 := by
    refine countP_zero_of_uid_ne _ u.id r.id pre ?_
      (not_mem_of_nodup_left pre post u hnodupU)
    intro e hel
    obtain ⟨l, hl, hel'⟩ := (mem_flatList e _).mp hel
    obtain ⟨j, v, hv, rfl⟩ := mem_mapFrom _ 0 pre l hl
    exact List.mem_map.mpr ⟨v, hv, (firedOf_uid env j v e hel').symm⟩
  have hzero2 : (sweepUsers env post (pre.length + 1)).events.countP
      (fun e => e.uid == u.id && e.rem.id == r.id) = 0 :=
    countP_zero_of_uid_ne _ u.id r.id post
      (fun e hel => sweepUsers_events_uid env post (pre.length + 1) e hel)
      (not_mem_of_nodup_right pre post u hnodupU)
  rw [hzero1, sweepUsers_cons_ok env u post pre.length rems hu]
  dsimp only
  rw [List.countP_append, hzero2,
    firedOf_countP env pre.length u rems r hu hnodupR hr]
  simp

/-- Witness for C6 at a one-user environment with two distinct matching
reminders. -/
theorem c6_at_most_once_witness :
    (runSweepTick c6wEnv).events.countP
        (fun e => e.uid == uA.id && e.rem.id == rMidnight.id) =
      if shouldFire rMidnight (userTimeStringOf c6wEnv 0 uA)
          (userDayOf c6wEnv 0 uA) then 1 else 0 :=
  c6_at_most_once c6wEnv [] [] uA [rMidnight, rTwo] rMidnight rfl (by decide)
    (by simp) rfl (by decide) (by simp)

/-- C7: the sweep only reads and notifies: its operation trace contains no
document creation, update or deletion, so the user and reminder
collections are unchanged by every execution. -/
theorem c7_no_store_writes (env : TickEnv) :
    (runSweepTick env).ops.filter StoreOp.isWrite = [] := by
  cases husers : env.listUsers with
  | error e =>
    simp only [runSweepTick, husers]
    rfl
  | ok users =>
    rw [runSweepTick_ok env users husers]
    refine List.filter_eq_nil_iff.mpr ?_
    intro op hop
    dsimp only at hop
    rcases List.mem_cons.mp hop with rfl | h'
    · simp [StoreOp.isWrite]
    · simp [sweepUsers_ops_noWrite env users 0 op h']

/-- C8: every per-user evaluation computes the local time string and the
weekday name from the same instant with the same timezone, so a tick can
never pair a weekday from one instant or timezone with a time-of-day from
another. -/
theorem c8_same_instant_same_tz (env : TickEnv) (e : EvalRec)
    (he : e ∈ (runSweepTick env).evals) :
    e.timeStr = env.fmtTime e.tz e.instant ∧
    e.dayStr = env.fmtDay e.tz e.instant := by
  cases husers : env.listUsers with
  | error err =>
    simp only [runSweepTick, husers] at he
    cases he
  | ok users =>
    rw [runSweepTick_ok env users husers] at he
    dsimp only at he
    obtain ⟨j, u, rfl⟩ := sweepUsers_evals_shape env users 0 e he
    exact ⟨rfl, rfl⟩

/-- Witness for C8 at a one-user environment. -/
theorem c8_same_instant_same_tz_witness :
    (⟨"A", "UTC", 0, "00:00", "Thursday"⟩ : EvalRec).timeStr =
        c8wEnv.fmtTime "UTC" 0 ∧
    (⟨"A", "UTC", 0, "00:00", "Thursday"⟩ : EvalRec).dayStr =
        c8wEnv.fmtDay "UTC" 0 :=
  c8_same_instant_same_tz c8wEnv ⟨"A", "UTC", 0, "00:00", "Thursday"⟩
    (by decide)

/-- C9: the match predicate is total and silently false on malformed
records: a reminder whose frequency is neither daily nor weekly, or whose
frequency is weekly with a null or absent day, never fires at any local
time and never yields a notification attempt in any run of the sweep. -/
theorem c9_malformed_never_fires (r : Reminder)
    (h : (r.frequency ≠ some "daily" ∧ r.frequency ≠ some "weekly") ∨
      (r.frequency = some "weekly" ∧ r.day = none)) :
    (∀ ts ds, shouldFire r ts ds = false) ∧
    (∀ env : TickEnv, ∀ e ∈ (runSweepTick env).events, e.rem ≠ r) := by
  have hsf : ∀ ts ds, shouldFire r ts ds = false := by
    intro ts ds
    rcases h with ⟨h1, h2⟩ | ⟨hf, hd⟩
    · have b1 : (r.frequency == some "daily") = false := beq_eq_false_iff_ne.mpr h1
      have b2 : (r.frequency == some "weekly") = false := beq_eq_false_iff_ne.mpr h2
      simp [shouldFire, b1, b2]
    · have b1 : (r.frequency == some "daily") = false := by rw [hf]; decide
      have b3 : (r.day == some ds) = false := by rw [hd]; rfl
      simp [shouldFire, b1, b3]
  refine ⟨hsf, ?_⟩
  intro env e he her
  cases husers : env.listUsers with
  | error err =>
    simp only [runSweepTick, husers] at he
    cases he
  | ok users =>
    rw [runSweepTick_ok env users husers] at he
    dsimp only at he
    obtain ⟨ts, ds, hfire⟩ := sweepUsers_events_fire env users 0 e he
    rw [her, hsf ts ds] at hfire
    cases hfire

/-- Witness for C9 at a reminder whose frequency is monthly. -/
theorem c9_malformed_never_fires_witness :
    (∀ ts ds, shouldFire rMonthly ts ds = false) ∧
    (∀ env : TickEnv, ∀ e ∈ (runSweepTick env).events, e.rem ≠ rMonthly) :=
  c9_malformed_never_fires rMonthly (Or.inl ⟨by decide, by decide⟩)

/-- C10: a user whose timezone field is present but empty is resolved to
UTC exactly as if the field were absent: replacing the empty-string field
by an absent one leaves the whole tick outcome unchanged. -/
theorem c10_empty_timezone_as_absent (env : TickEnv) (pre post : List UserRec)
    (u : UserRec)
    (husers : env.listUsers = Except.ok (pre ++ u :: post))
    (htz : u.timezone = some "") :
    runSweepTick env =
      runSweepTick (withUsers env (pre ++ { u with timezone := none } :: post)) := by
  have htzeq : resolveTz u.timezone =
      resolveTz ({ u with timezone := none } : UserRec).timezone := by
    rw [htz]; rfl
  rw [runSweepTick_ok env (pre ++ u :: post) husers,
    runSweepTick_ok (withUsers env (pre ++ { u with timezone := none } :: post))
      (pre ++ { u with timezone := none } :: post) rfl,
    sweepUsers_users_irrel env (pre ++ { u with timezone := none } :: post)
      (pre ++ { u with timezone := none } :: post) 0,
    sweepUsers_congr_user env pre post u ({ u with timezone := none }) 0 rfl htzeq]

/-- Witness for C10 at a one-user environment whose user has an empty
timezone string. -/
theorem c10_empty_timezone_as_absent_witness :
    runSweepTick c10wEnv =
      runSweepTick (withUsers c10wEnv
        ([] ++ { uEmptyTz with timezone := none } :: [])) :=
  c10_empty_timezone_as_absent c10wEnv [] [] uEmptyTz rfl rfl

end PersonalBot
